import Mathlib

/-!
Verification of the ticker-pattern scanning engine (`logic.py`, `app.py`).

Python strings are modelled by `String`, prices by `ℚ` (a missing value,
pandas `NaN`, is `none : Option ℚ`), provider calls by explicit oracles.
-/

namespace Woldebotz

/-- `TICKER_MAPPINGS` from `logic.py`: user ticker -> Yahoo ticker overrides. -/
def TICKER_MAPPINGS : List (String × String) :=
  [("PCG-I", "PCG-PI"), ("WRB-F", "WRB-PF"), ("CNO-A", "CNO-PA"),
   ("ETI-", "ETI-P"), ("NEE-N", "NEE-PN"), ("PBI-B", "PBI-PB"),
   ("WRB-E", "WRB-PE"), ("WRB-H", "WRB-PH"), ("F-D", "F-PD"),
   ("WRB-G", "WRB-PG"), ("ALL-B", "ALL-PB"), ("NEE-U", "NEE-PU"),
   ("F-C", "F-PC"), ("GL-D", "GL-PD")]

/-- Python's `str.split('-')` on the character list of a string (used because
`String.splitOn` does not reduce in the kernel). -/
def splitOnDash : List Char → List (List Char)
  | [] => [[]]
  | ch :: rest =>
    let r := splitOnDash rest
    if ch = '-' then [] :: r
    else
      match r with
      | s :: ss => (ch :: s) :: ss
      | [] => [[ch]]

/-- `parse_ticker_yf` from `logic.py`: converts user format (e.g. ABR-D) to
Yahoo Finance format (ABR-PD).  Manual mappings are checked first; then a
two-part dash split with a single-character tail gets `P` inserted after the
dash; otherwise the input is returned unchanged.  String operations are
carried out on the underlying character lists so that they evaluate. -/
def parse_ticker_yf (raw_ticker : String) : String :=
  match TICKER_MAPPINGS.lookup raw_ticker with
  | some m => m
  | none =>
    if raw_ticker.data.contains '-' then
      match splitOnDash raw_ticker.data with
      | [base, sfx] =>
          if sfx.length = 1 then ⟨base ++ '-' :: 'P' :: sfx⟩
          else ⟨base ++ '-' :: sfx⟩
      | _ => raw_ticker
    else raw_ticker

/-- `parse_ticker_tv` from `logic.py`: converts user format (e.g. ABR-D) to
TradingView format (ABR/PD).  Any two-part dash split becomes
`base ++ "/P" ++ sfx`, with no override table and no length check on the
tail. -/
def parse_ticker_tv (raw_ticker : String) : String :=
  if raw_ticker.data.contains '-' then
    match splitOnDash raw_ticker.data with
    | [base, sfx] => ⟨base ++ '/' :: 'P' :: sfx⟩
    | _ => raw_ticker
  else raw_ticker

/-- Inverse of `splitOnDash`: re-joins the parts with a dash. -/
def joinDash : List (List Char) → List Char
  | [] => []
  | [s] => s
  | s :: ss => s ++ '-' :: joinDash ss

/-! ## OHLC data model

One trading day's bar.  A field holding `none` models a pandas `NaN`
(missing value); comparisons against `NaN` are false in pandas, and
aggregations (`mean`, `max`, `min`) skip `NaN` entries. -/

structure Bar where
  bopen : Option ℚ
  bhigh : Option ℚ
  blow : Option ℚ
  bclose : Option ℚ
  bvolume : Option ℚ := none
deriving DecidableEq, Repr

/-- An OHLC series: the rows of the fetched dataframe, date-ascending. -/
abbrev Series := List Bar

/-- Elementwise subtraction with `NaN` propagation
(`df[a] - df[b]` in pandas). -/
def optSub (a b : Option ℚ) : Option ℚ :=
  match a, b with
  | some x, some y => some (x - y)
  | _, _ => none

/-- pandas `Series.mean()`: skips `NaN`s, `NaN` when nothing remains. -/
def naMean (xs : List (Option ℚ)) : Option ℚ :=
  let v := xs.filterMap id
  if v.length = 0 then none else some (v.sum / v.length)

/-- pandas `Series.max()`: skips `NaN`s, `NaN` when nothing remains. -/
def naMax : List (Option ℚ) → Option ℚ
  | [] => none
  | none :: rest => naMax rest
  | some v :: rest =>
      match naMax rest with
      | none => some v
      | some m => some (max v m)

/-- pandas `Series.min()`: skips `NaN`s, `NaN` when nothing remains. -/
def naMin : List (Option ℚ) → Option ℚ
  | [] => none
  | none :: rest => naMin rest
  | some v :: rest =>
      match naMin rest with
      | none => some v
      | some m => some (min v m)

/-- Python's `round(x, n)` (half-to-even tie breaking) on exact rationals. -/
def round_to (x : ℚ) (n : ℕ) : ℚ :=
  let m := x * (10 ^ n)
  let f : ℤ := ⌊m⌋
  let r := m - f
  let i : ℤ :=
    if r < 1 / 2 then f
    else if 1 / 2 < r then f + 1
    else if f % 2 = 0 then f else f + 1
  (i : ℚ) / (10 ^ n)

/-- pandas `x >= q` for a possibly-`NaN` `x`: false on `NaN`. -/
def naGe (a : Option ℚ) (q : ℚ) : Bool :=
  match a with
  | some x => q ≤ x
  | none => false

/-- A row is dropped by `df.dropna(how='all')` exactly when every field is
missing. -/
def Bar.isAllNa (b : Bar) : Bool :=
  b.bopen = none && b.bhigh = none && b.blow = none &&
  b.bclose = none && b.bvolume = none

/-- `df.dropna(how='all')`. -/
def dropAllNa (df : Series) : Series :=
  df.filter (fun b => !b.isAllNa)

/-! ## Provider oracle

`yf.Ticker(sym).history(...)` is modelled by an oracle mapping a symbol and
the index of the call (how many history calls were already made for that
symbol) to either an exception (`.error`) or a series (`.ok`; the empty
list is an empty dataframe).  A per-symbol call counter is threaded through
the scan so that retry behaviour is observable. -/

abbrev Oracle := String → Nat → Except String Series

abbrev Counts := String → Nat

/-- The all-zero call counter. -/
def zeroCounts : Counts := fun _ => 0

/-- Issue one provider history call for `s` and bump its counter. -/
def callHist (p : Oracle) (c : Counts) (s : String) : Except String Series × Counts :=
  (p s (c s), fun t => if t = s then c s + 1 else c t)

/-- The base/suffix split used by `resolve_ticker_yf` (`logic.py` lines
164-174): a dashed ticker is split at the first dash; a dashless ticker of
length 4 or 5 ending in a letter treats its last character as an implied
series letter; anything else yields empty parts. -/
def resolve_base_sfx (raw : String) : List Char × List Char :=
  if raw.data.contains '-' then
    match splitOnDash raw.data with
    | b :: s :: _ => (b, s)
    | _ => ([], [])
  else if 3 < raw.data.length ∧ (raw.data.getLastD ' ').isAlpha then
    if raw.data.length = 4 then (raw.data.take 3, raw.data.drop 3)
    else if raw.data.length = 5 then (raw.data.take 4, raw.data.drop 4)
    else ([], [])
  else ([], [])

/-- The ordered candidate spellings probed by `resolve_ticker_yf`
(`logic.py` lines 161-186): the default-rule symbol, the raw input, five
derived variants (deduplicated, order preserved), and two hard-coded
override lists. -/
def resolve_candidates (raw : String) : List String :=
  let standard := parse_ticker_yf raw
  let cands := [standard, raw]
  let (base, sfx) := resolve_base_sfx raw
  let cands :=
    if base ≠ [] ∧ sfx ≠ [] then
      [(⟨base ++ '-' :: 'P' :: sfx⟩ : String), ⟨base ++ '.' :: 'P' :: 'R' :: sfx⟩,
       ⟨base ++ 'P' :: '-' :: sfx⟩, ⟨base ++ '-' :: sfx⟩,
       ⟨base ++ sfx⟩].foldl (fun acc v => if acc.contains v then acc else acc ++ [v]) cands
    else cands
  if raw = "PCG-I" then cands ++ ["PCG-PI", "PCG.PRI"]
  else if raw = "WRB-F" then cands ++ ["WRB-PF", "WRB.PRF"]
  else cands

/-- The probe loop of `resolve_ticker_yf`: the first candidate whose
(short-window) history call returns non-empty data is accepted; exceptions
and empty results move on to the next candidate. -/
def resolve_probe (p : Oracle) : List String → Counts → Option String × Counts
  | [], c => (none, c)
  | cand :: rest, c =>
      match callHist p c cand with
      | (.ok hist, c') => if hist ≠ [] then (some cand, c') else resolve_probe p rest c'
      | (.error _, c') => resolve_probe p rest c'

/-- `resolve_ticker_yf` from `logic.py`: tries the candidate spellings in
order and returns the first one with non-empty history, or `none`. -/
def resolve_ticker_yf (p : Oracle) (c : Counts) (raw : String) : Option String × Counts :=
  resolve_probe p (resolve_candidates raw) c

/-! ## Range-Compression Filter (`fetch_and_process`, `logic.py` 198-257) -/

/-- One emitted match of the range-compression ("spread") filter, i.e. one
result dict of `fetch_and_process`.  `is_new` is `none` until the caller in
`app.py` attaches the flag. -/
structure PrefMatch where
  ticker : String
  yf_symbol : String
  tv_symbol : String
  spread : ℚ
  pmin : ℚ
  pmax : ℚ
  current : Option ℚ
  avg_daily_spread : Option ℚ
  pattern : Option String
  is_new : Option Bool := none
deriving DecidableEq, Repr

/-- The per-series evaluation of `fetch_and_process` (`logic.py` 220-250)
on a fetched, non-empty dataframe: mean daily spread, total range, the
`total_range <= 1.00 and avg_daily_spread >= 0.10` gate, and the secondary
red-bar "Short" sub-pattern. -/
def spread_eval (raw yf_sym : String) (df : Series) : Option PrefMatch :=
  let avg_daily_spread := naMean (df.map (fun b => optSub b.bhigh b.blow))
  match naMax (df.map (·.bhigh)), naMin (df.map (·.blow)) with
  | some high_max, some low_min =>
      let total_range := high_max - low_min
      if total_range ≤ 1 ∧ naGe avg_daily_spread (1 / 10) then
        let red_bars := df.filter (fun b =>
          match b.bclose, b.bopen with
          | some c, some o => c < o
          | _, _ => false)
        let pattern :=
          if 12 ≤ red_bars.length ∧ red_bars.all (fun b =>
              match b.bhigh, b.bopen with
              | some h, some o => h - o ≤ 51 / 1000
              | _, _ => false) then
            some "Short"
          else none
        some { ticker := raw, yf_symbol := yf_sym, tv_symbol := parse_ticker_tv raw,
               spread := round_to total_range 2, pmin := round_to low_min 2,
               pmax := round_to high_max 2,
               current := (df.getLast?.bind (·.bclose)).map (round_to · 2),
               avg_daily_spread := avg_daily_spread.map (round_to · 3),
               pattern := pattern }
      else none
  | _, _ => none

/-- Processing of one ticker inside `fetch_and_process`: fetch with the
default-rule symbol, resolve candidates when the result is empty, skip the
ticker on an exception or a (still) empty series.  There is no dropna, no
minimum-length check and no retry in this evaluator. -/
def pref_process_ticker (p : Oracle) (c : Counts) (raw : String) :
    Option PrefMatch × Counts :=
  let yf0 := parse_ticker_yf raw
  match callHist p c yf0 with
  | (.error _, c1) => (none, c1)
  | (.ok df0, c1) =>
      if df0 = [] then
        match resolve_ticker_yf p c1 raw with
        | (none, c2) => (none, c2)
        | (some cand, c2) =>
            match callHist p c2 cand with
            | (.error _, c3) => (none, c3)
            | (.ok df1, c3) =>
                if df1 = [] then (none, c3)
                else (spread_eval raw cand df1, c3)
      else (spread_eval raw yf0 df0, c1)

/-- Output of a scan loop: accumulated matches, the last value passed to
the progress callback, the number of tickers whose processing ran, and the
final per-symbol call counters. -/
structure ScanPrefOut where
  results : List PrefMatch
  progress : Option Nat
  processed : Nat
  counts : Counts

/-- The `fetch_and_process` loop.  The cooperative cancellation flag is
modelled as set from the moment `stopAt` tickers have been processed, so
the progress callback — invoked with `i + 1` AFTER processing ticker `i` —
returns the STOP sentinel exactly when `stopAt ≤ i + 1`. -/
def fetch_and_process_go (p : Oracle) (stopAt : Nat) :
    List String → Nat → Counts → List PrefMatch → ScanPrefOut
  | [], i, c, rs =>
      { results := rs, progress := if i = 0 then none else some i,
        processed := i, counts := c }
  | t :: ts, i, c, rs =>
      let (m, c') := pref_process_ticker p c t
      let rs' := rs ++ m.toList
      if stopAt ≤ i + 1 then
        { results := rs', progress := some (i + 1), processed := i + 1, counts := c' }
      else fetch_and_process_go p stopAt ts (i + 1) c' rs'

/-- `fetch_and_process` from `logic.py`, with cancellation threshold
`stopAt` (a threshold larger than the ticker count means the flag is never
set). -/
def fetch_and_process_model (p : Oracle) (stopAt : Nat) (tickers : List String) :
    ScanPrefOut :=
  fetch_and_process_go p stopAt tickers 0 zeroCounts []

/-- Reference sequential runner: processes every ticker, no cancellation,
accumulating matches in iteration order. -/
def pref_run (p : Oracle) (c : Counts) : List String → List PrefMatch × Counts
  | [] => ([], c)
  | t :: ts =>
      let (m, c') := pref_process_ticker p c t
      let (ms, c'') := pref_run p c' ts
      (m.toList ++ ms, c'')

/-! ## Wick-Imbalance Scanner (`fetch_imbalance`, `logic.py` 259-297) -/

/-- A green (bullish) bar: `Close > Open` (false when either is `NaN`). -/
def is_green (b : Bar) : Bool :=
  match b.bclose, b.bopen with
  | some c, some o => o < c
  | _, _ => false

/-- A red (bearish) bar: `Open > Close`. -/
def is_red (b : Bar) : Bool :=
  match b.bopen, b.bclose with
  | some o, some c => c < o
  | _, _ => false

/-- Green wick tolerance: `Open - Low <= max_wick + 0.00001`. -/
def green_wick_ok (max_wick : ℚ) (b : Bar) : Bool :=
  match b.bopen, b.blow with
  | some o, some l => o - l ≤ max_wick + 1 / 100000
  | _, _ => false

/-- Red wick tolerance: `High - Open <= max_wick + 0.00001`. -/
def red_wick_ok (max_wick : ℚ) (b : Bar) : Bool :=
  match b.bhigh, b.bopen with
  | some h, some o => h - o ≤ max_wick + 1 / 100000
  | _, _ => false

/-- The rows counted as qualifying green bars (`valid_green`). -/
def valid_green (max_wick : ℚ) (slice : Series) : Series :=
  slice.filter (fun b => is_green b && green_wick_ok max_wick b)

/-- The rows counted as qualifying red bars (`valid_red`). -/
def valid_red (max_wick : ℚ) (slice : Series) : Series :=
  slice.filter (fun b => is_red b && red_wick_ok max_wick b)

/-- One emitted match of the wick-imbalance scanner (one result dict of
`fetch_imbalance`).  `mtype` is the dict's `type` key.  `is_new`,
`days_param` and `max_wick_param` model keys attached later by `app.py`
callers. -/
structure ImbMatch where
  ticker : String
  yf_symbol : String
  tv_symbol : String
  mtype : String
  match_count : Nat
  avg_diff : Option ℚ
  total_days : Nat
  target_color : String
  is_new : Option Bool := none
  days_param : Option Nat := none
  max_wick_param : Option ℚ := none
deriving DecidableEq, Repr

/-- Scanner parameters of `fetch_imbalance`. -/
structure ImbParams where
  days : Nat
  min_count : Nat
  max_wick : ℚ
deriving DecidableEq, Repr

/-- The pattern records built from one sliced series (`logic.py` 279-293):
a `Long` entry whenever the qualifying green count reaches `min_count` and,
independently, a `Short` entry whenever the qualifying red count does;
a ticker meeting both thresholds contributes both entries, `Long` first. -/
def imb_patterns (raw yf_sym tv_sym : String) (ps : ImbParams) (slice : Series) :
    List ImbMatch :=
  let vg := valid_green ps.max_wick slice
  let vr := valid_red ps.max_wick slice
  (if ps.min_count ≤ vg.length then
    [{ ticker := raw, yf_symbol := yf_sym, tv_symbol := tv_sym, mtype := "Long",
       match_count := vg.length,
       avg_diff := (naMean (vg.map (fun b => optSub b.bopen b.blow))).map (round_to · 4),
       total_days := ps.days, target_color := "Green" }]
   else []) ++
  (if ps.min_count ≤ vr.length then
    [{ ticker := raw, yf_symbol := yf_sym, tv_symbol := tv_sym, mtype := "Short",
       match_count := vr.length,
       avg_diff := (naMean (vr.map (fun b => optSub b.bhigh b.bopen))).map (round_to · 4),
       total_days := ps.days, target_color := "Red" }]
   else [])

/-- Processing of one ticker inside `fetch_imbalance`: fetch (resolving
candidates on an empty result), drop all-missing rows, silently skip the
ticker when fewer than `days` cleaned bars remain, then evaluate the most
recent `days` bars. -/
def imb_process_ticker (p : Oracle) (ps : ImbParams) (c : Counts) (raw : String) :
    List ImbMatch × Counts :=
  let yf0 := parse_ticker_yf raw
  let tv := parse_ticker_tv raw
  let eval := fun (yf_sym : String) (df0 : Series) =>
    let df := dropAllNa df0
    if df = [] ∨ df.length < ps.days then ([], ·)
    else
      let slice := df.drop (df.length - ps.days)
      (imb_patterns raw yf_sym tv ps slice, ·)
  match callHist p c yf0 with
  | (.error _, c1) => ([], c1)
  | (.ok df0, c1) =>
      if df0 = [] then
        match resolve_ticker_yf p c1 raw with
        | (none, c2) => eval yf0 df0 c2
        | (some cand, c2) =>
            match callHist p c2 cand with
            | (.error _, c3) => ([], c3)
            | (.ok df1, c3) => eval cand df1 c3
      else eval yf0 df0 c1

/-- Output of the imbalance scan loop. -/
structure ScanImbOut where
  results : List ImbMatch
  progress : Option Nat
  processed : Nat
  counts : Counts

/-- The `fetch_imbalance` loop.  The progress callback is invoked with `i`
BEFORE processing ticker `i` and its STOP return aborts the scan there;
after a full pass a final `progress_callback(total, total)` is issued whose
return value is ignored. -/
def fetch_imbalance_go (p : Oracle) (ps : ImbParams) (stopAt total : Nat) :
    List String → Nat → Counts → List ImbMatch → ScanImbOut
  | [], i, c, rs =>
      { results := rs, progress := some total, processed := i, counts := c }
  | t :: ts, i, c, rs =>
      if stopAt ≤ i then
        { results := rs, progress := some i, processed := i, counts := c }
      else
        let (ms, c') := imb_process_ticker p ps c t
        fetch_imbalance_go p ps stopAt total ts (i + 1) c' (rs ++ ms)

/-- `fetch_imbalance` from `logic.py`, with cancellation threshold `stopAt`
(a threshold larger than the ticker count means the flag is never set). -/
def fetch_imbalance_model (p : Oracle) (ps : ImbParams) (stopAt : Nat)
    (tickers : List String) : ScanImbOut :=
  fetch_imbalance_go p ps stopAt tickers.length tickers 0 zeroCounts []

/-- Reference sequential runner for the imbalance scanner. -/
def imb_run (p : Oracle) (ps : ImbParams) (c : Counts) :
    List String → List ImbMatch × Counts
  | [] => ([], c)
  | t :: ts =>
      let (ms, c') := imb_process_ticker p ps c t
      let (ms2, c'') := imb_run p ps c' ts
      (ms ++ ms2, c'')

/-! ## Dividend-Recovery Analyzer (`analyze_dividend_recovery`, `logic.py`
434-760)

Dates are modelled as day numbers (`ℤ`); `timedelta(days=n)` is integer
subtraction, "now" is the parameter `today`. -/

/-- A dividend-history series: (ex-date, amount) pairs, date-ascending. -/
abbrev DivSeries := List (ℤ × ℚ)

/-- A dated price-history row (the 2-year dataframe is date-indexed). -/
structure HRow where
  hdate : ℤ
  hbar : Bar
deriving DecidableEq, Repr

abbrev Hist := List HRow

/-- `df.tail(n)`. -/
def listTail {α : Type} (n : Nat) (l : List α) : List α :=
  l.drop (l.length - n)

/-- `DIVIDEND_OVERRIDES` from `logic.py` (dates as day numbers since
1970-01-01; 2026-01-26 is day 20479). -/
def DIVIDEND_OVERRIDES : List (String × ℤ) :=
  [("GS-PC", 20479), ("GS-PD", 20479), ("GS-PA", 20479)]

/-- The provider calls issued by the dividend analyzer, per symbol and (for
retried calls) per attempt index.  `.error` is a raised exception. -/
structure DivProvider where
  /-- history probes issued by `resolve_ticker_yf` candidates -/
  probe : Oracle
  /-- `ticker.dividends` -/
  dividends : String → Nat → Except String DivSeries
  /-- `fetch_dividends_fallback` (returns an empty series on failure,
  never raises) -/
  scrape : DivSeries
  /-- `ticker.history(period="2y", auto_adjust=False)` -/
  hist2y : String → Nat → Except String Hist
  /-- `ticker.info.get("exDividendDate")` -/
  info_exdiv : Nat → Except String (Option ℤ)
  /-- `ticker.calendar['Ex-Dividend Date']` (`none` when absent/falsy) -/
  cal_exdiv : Nat → Except String (Option ℤ)

/-- The `max_retries = 3` loop of `logic.py` 439-453: break on the first
non-raising call, propagate the exception of the final attempt. -/
def retry3 {α : Type} (q : Nat → Except String α) : Except String α :=
  match q 0 with
  | .ok a => .ok a
  | .error _ =>
      match q 1 with
      | .ok a => .ok a
      | .error _ => q 2

/-- The history retry loop of `logic.py` 474-480: three attempts, break on
the first non-empty frame, exceptions swallowed, empty frame when all
attempts fail. -/
def hist_retry (q : Nat → Except String Hist) : Hist :=
  match q 0 with
  | .ok h =>
      if h ≠ [] then h
      else
        match q 1 with
        | .ok h1 =>
            if h1 ≠ [] then h1
            else match q 2 with | .ok h2 => h2 | .error _ => h1
        | .error _ => match q 2 with | .ok h2 => h2 | .error _ => h
  | .error _ =>
      match q 1 with
      | .ok h1 =>
          if h1 ≠ [] then h1
          else match q 2 with | .ok h2 => h2 | .error _ => h1
      | .error _ => match q 2 with | .ok h2 => h2 | .error _ => []

/-- The info/calendar retry loop of `logic.py` 669-696: per attempt, a
truthy `exDividendDate` breaks, else a truthy calendar entry breaks,
exceptions move to the next attempt; `none` after three attempts. -/
def info_next_ex_go (P : DivProvider) (k : Nat) : Nat → Option ℤ
  | 0 => none
  | fuel + 1 =>
      match P.info_exdiv k with
      | .ok (some t) => some t
      | .ok none =>
          match P.cal_exdiv k with
          | .ok (some d) => some d
          | _ => info_next_ex_go P (k + 1) fuel
      | .error _ => info_next_ex_go P (k + 1) fuel

def info_next_ex (P : DivProvider) : Option ℤ :=
  info_next_ex_go P 0 3

/-- Insertion sort on integers (`offsets.sort()`). -/
def insertSorted (x : ℤ) : List ℤ → List ℤ
  | [] => [x]
  | y :: ys => if x ≤ y then x :: y :: ys else y :: insertSorted x ys

def sortInts : List ℤ → List ℤ
  | [] => []
  | x :: xs => insertSorted x (sortInts xs)

/-- Next-dividend estimation fallback (`logic.py` 702-729): median of up to
four most recent gaps, classified into a frequency bucket, last ex-date
rolled forward just past `today`. -/
def estimate_next (divs : DivSeries) (today : ℤ) : ℤ :=
  let last_ex := ((divs.getLast?).map (·.1)).getD 0
  let n := divs.length
  let offsets := (List.range' 1 (min 4 (n - 1))).map (fun j =>
    ((divs.get? (n - j)).map (·.1)).getD 0 - ((divs.get? (n - j - 1)).map (·.1)).getD 0)
  let freq0 : ℤ :=
    if offsets = [] then 91
    else
      let sorted := sortInts offsets
      let median_gap := sorted.getD (sorted.length / 2) 0
      if 25 ≤ median_gap ∧ median_gap ≤ 35 then 30
      else if 80 ≤ median_gap ∧ median_gap ≤ 100 then 91
      else if 170 ≤ median_gap ∧ median_gap ≤ 195 then 182
      else median_gap
  let freq := if freq0 < 20 then 30 else freq0
  -- `next = last_ex + freq; while next < today: next += freq`
  last_ex + freq * max 1 ((today - last_ex + freq - 1) / freq)

/-- pandas `a > b` on possibly-`NaN` operands: false on `NaN`. -/
def optGt (a b : Option ℚ) : Bool :=
  match a, b with
  | some x, some y => y < x
  | _, _ => false

/-- The pump-start search (`logic.py` 587-590): first index whose close
exceeds the previous day's close. -/
def pump_start_idx (closes : List (Option ℚ)) : Option ℕ :=
  ((List.range closes.length).drop 1).find? (fun i =>
    optGt (closes.getD i none) (closes.getD (i - 1) none))

/-- The pre-dividend 14-day enrichment (`logic.py` 546-637).  `none` models
both the `len < 3` skip and the surrounding `except` handler. -/
structure Pre14 where
  lowest_price : Option ℚ
  lowest_day : Option ℤ
  highest_price : Option ℚ
  highest_day : Option ℤ
  close_ex_m1 : Option ℚ
  close_ex_m14 : Option ℚ
  price_change_pct : ℚ
  price_change_usd : ℚ
  pump_detected : Bool
  pump_start_day : Option ℤ
  avg_120d_volume : ℤ
  avg_14d_volume : ℤ
  volume_spike_detected : Bool
  volume_spike_pct : ℚ
deriving DecidableEq, Repr

def pre_div_14d_eval (hist : Hist) (ex : ℤ) : Option Pre14 :=
  let pre_div_dates := listTail 14 (hist.filter (fun r => r.hdate < ex))
  if pre_div_dates.length < 3 then none
  else
    let n := pre_div_dates.length
    let lows := pre_div_dates.map (·.hbar.blow)
    let highs := pre_div_dates.map (·.hbar.bhigh)
    let closes := pre_div_dates.map (·.hbar.bclose)
    let lowest_price := naMin lows
    let highest_price := naMax highs
    let lowest_day := lowest_price.bind (fun v =>
      (lows.findIdx? (· = some v)).map (fun i => (i : ℤ) - n))
    let highest_day := highest_price.bind (fun v =>
      (highs.findIdx? (· = some v)).map (fun i => (i : ℤ) - n))
    let close_m1 := (closes.getLast?).getD none
    let close_m14 := (closes.head?).getD none
    let pcs :=
      match close_m1, close_m14 with
      | some c1, some c14 =>
          if 0 < c14 then
            (round_to ((c1 - c14) / c14 * 100) 2, round_to (c1 - c14) 2)
          else ((0 : ℚ), (0 : ℚ))
      | _, _ => ((0 : ℚ), (0 : ℚ))
    let pump :=
      if 6 ≤ n then
        match naMean (closes.take 3), naMean (listTail 3 closes) with
        | some f, some l =>
            if 0 < f ∧ 1 ≤ (l - f) / f * 100 then
              (true, (pump_start_idx closes).map (fun i => (i : ℤ) - n))
            else (false, (none : Option ℤ))
        | _, _ => (false, none)
      else (false, none)
    let history_120d := listTail 120 (hist.filter (fun r => r.hdate < ex))
    let vols :=
      if history_120d ≠ [] then
        match naMean (history_120d.map (·.hbar.bvolume)),
              naMean (pre_div_dates.map (·.hbar.bvolume)) with
        | some a, some b =>
            if 0 < a ∧ 0 < b ∧ a * (11 / 10) ≤ b then
              (⌊a⌋, ⌊b⌋, true, round_to ((b - a) / a * 100) 1)
            else (⌊a⌋, ⌊b⌋, false, (0 : ℚ))
        | _, _ => ((0 : ℤ), (0 : ℤ), false, (0 : ℚ))
      else ((0 : ℤ), (0 : ℤ), false, (0 : ℚ))
    some { lowest_price := lowest_price.map (round_to · 2),
           lowest_day := lowest_day,
           highest_price := highest_price.map (round_to · 2),
           highest_day := highest_day,
           close_ex_m1 := close_m1.map (round_to · 2),
           close_ex_m14 := close_m14.map (round_to · 2),
           price_change_pct := pcs.1, price_change_usd := pcs.2,
           pump_detected := pump.1, pump_start_day := pump.2,
           avg_120d_volume := vols.1, avg_14d_volume := vols.2.1,
           volume_spike_detected := vols.2.2.1, volume_spike_pct := vols.2.2.2 }

/-- One entry of the per-dividend analysis list (`logic.py` 497-648). -/
structure DivEntry where
  ex_date : ℤ
  amount : ℚ
  error : Option String := none
  pre_div_close : Option ℚ := none
  recovered : Bool
  recovery_days : Option ℤ
  current_distance : ℚ
  window_recv_pct : ℚ
  pre_div_14d : Option Pre14 := none
deriving DecidableEq, Repr

/-- The pre-dividend close search (`logic.py` 506-510): the first of the
five calendar days before the ex-date present in the history index. -/
def find_pre_row (hist : Hist) (ex : ℤ) : Option HRow :=
  (List.range' 1 5).findSome? (fun i => hist.find? (fun r => r.hdate = ex - i))

/-- The analysis of one dividend event (`logic.py` 497-648). -/
def analyze_one_div (hist : Hist) (recovery_window : Nat) (today : ℤ)
    (ex : ℤ) (amount : ℚ) : DivEntry :=
  match (find_pre_row hist ex).bind (·.hbar.bclose) with
  | none =>
      { ex_date := ex, amount := round_to amount 3,
        error := some "Price data missing", recovered := false,
        recovery_days := some 9999, current_distance := 0, window_recv_pct := 0 }
  | some pre =>
      let future_dates := hist.filter (fun r => ex ≤ r.hdate)
      let rec_day := (future_dates.find? (fun r => naGe r.hbar.bhigh pre)).map
        (fun r => r.hdate - ex)
      let recovery_days : Option ℤ :=
        match rec_day with
        | some d => some d
        | none => if future_dates ≠ [] then some (today - ex) else none
      let current_distance : ℚ :=
        match rec_day with
        | some _ => 0
        | none =>
            if future_dates ≠ [] then
              match (future_dates.getLast?).bind (·.hbar.bclose) with
              | some lc => round_to (pre - lc) 2
              | none => 0
            else 0
      let window := future_dates.take recovery_window
      let window_recv_pct : ℚ :=
        if window ≠ [] ∧ 0 < amount then
          match naMax (window.map (·.hbar.bhigh)) with
          | some mh => round_to ((mh - (pre - amount)) / amount * 100) 1
          | none => 0
        else 0
      { ex_date := ex, amount := round_to amount 3,
        pre_div_close := some (round_to pre 2), recovered := rec_day.isSome,
        recovery_days := recovery_days, current_distance := current_distance,
        window_recv_pct := window_recv_pct,
        pre_div_14d := pre_div_14d_eval hist ex }

/-- The analyzer's result record.  Keys absent from a given Python return
dict are `none`/`[]` here. -/
structure DivResult where
  ticker : String
  tv_symbol : String
  error : Option String := none
  dividends : List DivEntry := []
  current_price : Option ℚ := none
  days_since_last_div : Option ℤ := none
  next_div_days : Option ℤ := none
  next_ex_date : Option ℤ := none
  avg_volume_30d : Option ℤ := none
deriving DecidableEq, Repr

/-- The error-flagged record returned by every failure path of the
analyzer (`logic.py` 452, 469, 490, 760). -/
def err_result (raw e : String) : DivResult :=
  { ticker := raw, tv_symbol := parse_ticker_tv raw, error := some e }

/-- The success path of the analyzer (`logic.py` 492-756), after dividends
and a non-empty price history have been obtained. -/
def analyze_success (P : DivProvider) (raw sym1 : String) (divs2 recent_divs : DivSeries)
    (hist : Hist) (recovery_window : Nat) (today : ℤ) : DivResult :=
  let current_price := (hist.getLast?).bind (·.hbar.bclose)
  let dividend_analysis := recent_divs.map (fun d =>
    analyze_one_div hist recovery_window today d.1 d.2)
  let days_since := (recent_divs.getLast?).map (fun d => today - d.1)
  -- manual overrides first (660-665), then provider info/calendar (667-698)
  let next_ex1 : Option ℤ :=
    match DIVIDEND_OVERRIDES.lookup sym1 with
    | some d => some d
    | none => info_next_ex P
  -- estimation fallback when absent or in the past (701-729)
  let next_ex2 : Option ℤ :=
    if (match next_ex1 with | none => true | some d => d < today) then
      if divs2 ≠ [] then some (estimate_next divs2 today) else next_ex1
    else next_ex1
  let avg_volume_30d :=
    (naMean ((listTail 30 hist).map (·.hbar.bvolume))).map (fun a => ⌊a⌋)
  { ticker := raw, tv_symbol := parse_ticker_tv raw,
    dividends := dividend_analysis,
    current_price := current_price.map (round_to · 2),
    days_since_last_div := days_since,
    next_div_days := next_ex2.map (· - today),
    next_ex_date := next_ex2,
    avg_volume_30d := avg_volume_30d }

/-- The tail of the analyzer after the dividend series `divs2` (already
scrape-patched) is fixed (`logic.py` 467-756): the two explicit error
returns, the price-history retry and resolution, and the success record;
`.error` is an exception reaching the outer handler.  `hist_retry` is
referentially transparent, so repeating the call stands for the single
Python `hist` value. -/
def analyze_with_divs (P : DivProvider) (raw sym1 : String) (c1 : Counts)
    (divs2 : DivSeries) (lookback recovery_window : Nat) (today : ℤ) :
    Except String DivResult :=
  if divs2 = [] then .ok (err_result raw "No dividend history found")
  else
    match (if hist_retry (P.hist2y sym1) = [] then
             match resolve_ticker_yf P.probe c1 raw with
             | (some cand2, _) => P.hist2y cand2 0
             | (none, _) => .ok (hist_retry (P.hist2y sym1))
           else .ok (hist_retry (P.hist2y sym1))) with
    | .error e => .error e
    | .ok hist =>
        if hist = [] then .ok (err_result raw "No price history found")
        else .ok (analyze_success P raw sym1 divs2
                    (divs2.drop (divs2.length - lookback)) hist
                    recovery_window today)

/-- The body of the big `try` (`logic.py` 455-756): dividend-stage symbol
resolution and the scraping fallback, then `analyze_with_divs`. -/
def analyze_body (P : DivProvider) (raw yf0 : String) (divs0 : DivSeries)
    (lookback recovery_window : Nat) (today : ℤ) : Except String DivResult :=
  if divs0 = [] then
    match resolve_ticker_yf P.probe zeroCounts raw with
    | (some cand, c') =>
        match P.dividends cand 0 with
        | .ok d =>
            analyze_with_divs P raw cand c' (if d = [] then P.scrape else d)
              lookback recovery_window today
        | .error e => .error e
    | (none, c') =>
        analyze_with_divs P raw yf0 c' (if divs0 = [] then P.scrape else divs0)
          lookback recovery_window today
  else
    analyze_with_divs P raw yf0 zeroCounts
      (if divs0 = [] then P.scrape else divs0) lookback recovery_window today

/-- `analyze_dividend_recovery` from `logic.py`: the initial retried
dividends fetch, then the body guarded by the outer exception handler; a
total function that always yields a record. -/
def analyze_dividend_recovery (P : DivProvider) (raw : String)
    (lookback recovery_window : Nat) (today : ℤ) : DivResult :=
  let yf0 := parse_ticker_yf raw
  match retry3 (P.dividends yf0) with
  | .error e => err_result raw e
  | .ok divs0 =>
      match analyze_body P raw yf0 divs0 lookback recovery_window today with
      | .ok r => r
      | .error e => err_result raw e

/-! ## Baseline differ and cached scan state (`app.py`) -/

/-- `markNew` (`app.py` 257-259): flag a match new exactly when its ticker
is absent from the previous completed scan's baseline set. -/
def markNew (ms : List PrefMatch) (baseline : List String) : List PrefMatch :=
  ms.map (fun r => { r with is_new := some (decide (r.ticker ∉ baseline)) })

/-- The in-memory per-scan-kind cache (`prefs_cache` / `imbalance_cache`,
`app.py` 129-149).  `last_updated` holds the numeric value of the formatted
timestamp string. -/
structure CacheState (α : Type) where
  status : String
  last_updated : Option ℚ
  last_updated_ts : ℚ
  results : List α
  baseline_tickers : List String
  progress : Nat
  total : Nat
  stop_requested : Bool
deriving DecidableEq

/-- `load_and_analyze_prefs` (`app.py` 214-276).  `fileTickers` is the
outcome of reading `tickers.txt` (raising inside the `try` sets status
`error`); `stopAt` is the processed-count from which the user's stop flag
is set; the returned Bool records whether `save_history` ran. -/
def load_and_analyze_prefs (cache : CacheState PrefMatch) (force : Bool)
    (now_ts : ℚ) (fileTickers : Except String (List String)) (p : Oracle)
    (stopAt : Nat) : CacheState PrefMatch × Bool :=
  if ¬force ∧ now_ts - cache.last_updated_ts < 86400 ∧ cache.results ≠ [] then
    (cache, false)
  else
    let cache1 := { cache with status := "processing", progress := 0,
                               stop_requested := false }
    match fileTickers with
    | .error _ => ({ cache1 with status := "error" }, false)
    | .ok ts =>
        let unique_tickers := ts.eraseDups
        let cache2 := { cache1 with total := unique_tickers.length }
        let out := fetch_and_process_model p stopAt unique_tickers
        let cache3 := { cache2 with progress := out.progress.getD cache2.progress,
                                    stop_requested := stopAt ≤ out.processed }
        if stopAt ≤ out.processed then
          ({ cache3 with status := if cache3.results ≠ [] then "completed" else "idle" },
           false)
        else
          let marked := markNew out.results cache.baseline_tickers
          ({ cache3 with results := marked,
                         baseline_tickers := marked.map (·.ticker),
                         status := "completed",
                         last_updated := some now_ts,
                         last_updated_ts := now_ts }, true)

/-- The parameter names `fetch_imbalance` (logic.py 259) accepts. -/
def fetch_imbalance_accepted_params : List String :=
  ["tickers", "days", "min_count", "max_wick", "progress_callback"]

/-- The keyword arguments `load_and_analyze_imbalance` passes to
`fetch_imbalance` (`app.py` 303-310). -/
def load_and_analyze_imbalance_kwargs : List String :=
  ["days", "min_count", "max_wick", "min_profit", "filter_wick",
   "filter_profit", "progress_callback"]

/-- Python call semantics: a keyword argument the callee does not accept
raises `TypeError` at the call site. -/
def imbalance_call_raises : Bool :=
  load_and_analyze_imbalance_kwargs.any
    (fun k => !(fetch_imbalance_accepted_params.contains k))

/-- The is-new marking plus `days`/`max_wick` keys attached by
`load_and_analyze_imbalance` (`app.py` 317-322). -/
def markNewImb (ms : List ImbMatch) (baseline : List String) (days : Nat)
    (w : ℚ) : List ImbMatch :=
  ms.map (fun r => { r with is_new := some (decide (r.ticker ∉ baseline)),
                            days_param := some days, max_wick_param := some w })

/-- `load_and_analyze_imbalance` (`app.py` 278-336).  The call into
`fetch_imbalance` passes keyword arguments the function does not accept, so
it raises `TypeError` and the handler sets status `error`; the intended
flow past that point is modelled for reference but is unreachable. -/
def load_and_analyze_imbalance (cache : CacheState ImbMatch) (force : Bool)
    (now_ts : ℚ) (fileTickers : Except String (List String)) (p : Oracle)
    (ps : ImbParams) (stopAt : Nat) : CacheState ImbMatch × Bool :=
  if ¬force ∧ now_ts - cache.last_updated_ts < 86400 ∧ cache.results ≠ [] then
    (cache, false)
  else
    let cache1 := { cache with status := "processing", progress := 0,
                               stop_requested := false }
    match fileTickers with
    | .error _ => ({ cache1 with status := "error" }, false)
    | .ok ts =>
        let unique_tickers := ts.eraseDups
        let cache2 := { cache1 with total := unique_tickers.length }
        if imbalance_call_raises then ({ cache2 with status := "error" }, false)
        else
          let out := fetch_imbalance_model p ps stopAt unique_tickers
          let cache3 := { cache2 with progress := out.progress.getD cache2.progress,
                                      stop_requested := stopAt ≤ out.processed }
          if stopAt ≤ out.processed then
            ({ cache3 with
                status := if cache3.results ≠ [] then "completed" else "idle" },
             false)
          else
            let marked := markNewImb out.results cache.baseline_tickers ps.days
              ps.max_wick
            ({ cache3 with results := marked,
                           baseline_tickers := marked.map (·.ticker),
                           status := "completed",
                           last_updated := some now_ts,
                           last_updated_ts := now_ts }, true)

/-! ## Concrete fixtures for counterexamples and witnesses -/

/-- A bar whose range and spread are both 0.10 around 25. -/
def bar25 : Bar :=
  { bopen := some 25, bhigh := some (251 / 10), blow := some 25,
    bclose := some (2505 / 100) }

/-- Oracle: ticker `T` yields a single-bar matching series. -/
def pSingleBar : Oracle := fun s _ =>
  if s = "T" then .ok [bar25] else .ok []

/-- Oracle for the retry counterexample: the history call for `A` raises
exactly once and succeeds from the second call on (a transient error);
`B` succeeds immediately. -/
def pTransient : Oracle := fun s n =>
  if s = "A" then (if n = 0 then .error "ReadTimeout" else .ok [bar25])
  else if s = "B" then .ok [bar25]
  else .ok []

/-- A green bar (close above open, no lower wick). -/
def barGreen : Bar :=
  { bopen := some 10, bhigh := some (105 / 10), blow := some 10,
    bclose := some (104 / 10) }

/-- A red bar (close below open, no upper wick). -/
def barRed : Bar :=
  { bopen := some (104 / 10), bhigh := some (104 / 10), blow := some 10,
    bclose := some (101 / 10) }

/-- Oracle: ticker `T` yields one qualifying green and one qualifying red
bar. -/
def pGreenRed : Oracle := fun s _ =>
  if s = "T" then .ok [barGreen, barRed] else .ok []

/-- Boundary series: total range exactly 1.00, mean daily spread exactly
0.10. -/
def dfBoundary : Series :=
  [{ bopen := some (254 / 10), bhigh := some (255 / 10), blow := some (2535 / 100),
     bclose := some (254 / 10) },
   { bopen := some (2452 / 100), bhigh := some (2455 / 100), blow := some (245 / 10),
     bclose := some (2452 / 100) }]

/-- The same series with the top high lifted by 0.0001: total range
1.0001. -/
def dfOver : Series :=
  [{ bopen := some (254 / 10), bhigh := some (255001 / 10000), blow := some (2535 / 100),
     bclose := some (254 / 10) },
   { bopen := some (2452 / 100), bhigh := some (2455 / 100), blow := some (245 / 10),
     bclose := some (2452 / 100) }]

/-- A provider whose every dividends call raises. -/
def pDivFail : DivProvider :=
  { probe := fun _ _ => .ok [], dividends := fun _ _ => .error "ConnectionError",
    scrape := [], hist2y := fun _ _ => .ok [],
    info_exdiv := fun _ => .ok none, cal_exdiv := fun _ => .ok none }

/-- A provider with no dividends anywhere and no resolvable candidate. -/
def pDivNone : DivProvider :=
  { probe := fun _ _ => .ok [], dividends := fun _ _ => .ok [],
    scrape := [], hist2y := fun _ _ => .ok [],
    info_exdiv := fun _ => .ok none, cal_exdiv := fun _ => .ok none }

/-- A provider with one dividend but no price history. -/
def pDivNoHist : DivProvider :=
  { probe := fun _ _ => .ok [], dividends := fun _ _ => .ok [(20000, 1 / 2)],
    scrape := [], hist2y := fun _ _ => .ok [],
    info_exdiv := fun _ => .ok none, cal_exdiv := fun _ => .ok none }

/-- A provider whose dividends fetch fails twice and succeeds on the third
attempt, with a one-row price history. -/
def pDivRetry : DivProvider :=
  { probe := fun _ _ => .ok [],
    dividends := fun _ n => if n < 2 then .error "ReadTimeout" else .ok [(20000, 1 / 2)],
    scrape := [],
    hist2y := fun _ _ => .ok [{ hdate := 20001, hbar := bar25 }],
    info_exdiv := fun _ => .ok none, cal_exdiv := fun _ => .ok none }

/-- A populated prefs cache from a previous completed scan. -/
def cache0 : CacheState PrefMatch :=
  { status := "completed", last_updated := some 100, last_updated_ts := 100,
    results := [{ ticker := "T", yf_symbol := "T", tv_symbol := "T", spread := 1,
                  pmin := 25, pmax := 26, current := some 25,
                  avg_daily_spread := some (1 / 5), pattern := none }],
    baseline_tickers := ["T"], progress := 1, total := 1,
    stop_requested := false }

/-- A populated imbalance cache from a previous completed scan. -/
def cacheImb0 : CacheState ImbMatch :=
  { status := "completed", last_updated := some 100, last_updated_ts := 100,
    results := [{ ticker := "T", yf_symbol := "T", tv_symbol := "T",
                  mtype := "Long", match_count := 20, avg_diff := some (1 / 100),
                  total_days := 30, target_color := "Green" }],
    baseline_tickers := ["T"], progress := 1, total := 1,
    stop_requested := false }

/-- The match `fetch_and_process` emits for ticker `T` on the single-bar
series `[bar25]`. -/
def prefFix : PrefMatch :=
  { ticker := "T", yf_symbol := "T", tv_symbol := "T",
    spread := round_to (1 / 10) 2, pmin := round_to 25 2,
    pmax := round_to (251 / 10) 2, current := some (round_to (2505 / 100) 2),
    avg_daily_spread := some (round_to (1 / 10) 3), pattern := none }

theorem splitOnDash_ne_nil (l : List Char) : splitOnDash l ≠ [] := by
  cases l with
  | nil => simp [splitOnDash]
  | cons ch rest =>
    simp only [splitOnDash]
    by_cases h : ch = '-'
    · simp [h]
    · simp only [h, if_false]
      cases splitOnDash rest with
      | nil => simp
      | cons s ss => simp

theorem joinDash_cons (s : List Char) (ss : List (List Char)) (h : ss ≠ []) :
    joinDash (s :: ss) = s ++ '-' :: joinDash ss := by
  cases ss with
  | nil => exact absurd rfl h
  | cons a t => rfl

/-- `splitOnDash` is a genuine split: joining the parts with a dash
reconstructs the input. -/
theorem joinDash_splitOnDash : ∀ l : List Char, joinDash (splitOnDash l) = l := by
  intro l
  induction l with
  | nil => rfl
  | cons ch rest ih =>
    simp only [splitOnDash]
    by_cases h : ch = '-'
    · subst h
      simp only [if_true]
      rw [joinDash_cons _ _ (splitOnDash_ne_nil rest), List.nil_append, ih]
    · simp only [h, if_false]
      obtain ⟨s, ss, hss⟩ := List.exists_cons_of_ne_nil (splitOnDash_ne_nil rest)
      rw [hss] at ih ⊢
      cases ss with
      | nil => simpa [joinDash] using ih
      | cons a t =>
        rw [joinDash_cons _ _ (by simp)] at ih ⊢
        simp [← ih]

theorem splitOnDash_imp_data (raw : String) (base sfx : List Char)
    (h : splitOnDash raw.data = [base, sfx]) : raw.data = base ++ '-' :: sfx := by
  have := joinDash_splitOnDash raw.data
  rw [h] at this
  rw [← this, joinDash_cons _ _ (by simp)]
  rfl

theorem contains_of_split (raw : String) (base sfx : List Char)
    (h : splitOnDash raw.data = [base, sfx]) : raw.data.contains '-' = true := by
  rw [splitOnDash_imp_data raw base sfx h]
  simp

theorem parse_ticker_yf_override (raw m : String)
    (h : TICKER_MAPPINGS.lookup raw = some m) : parse_ticker_yf raw = m := by
  simp [parse_ticker_yf, h]

theorem parse_ticker_yf_single (raw : String) (base sfx : List Char)
    (h0 : TICKER_MAPPINGS.lookup raw = none)
    (h1 : splitOnDash raw.data = [base, sfx]) (h2 : sfx.length = 1) :
    parse_ticker_yf raw = ⟨base ++ '-' :: 'P' :: sfx⟩ := by
  have hc := contains_of_split raw base sfx h1
  simp only [parse_ticker_yf, h0]
  rw [if_pos hc]
  simp only [h1]
  rw [if_pos h2]

theorem parse_ticker_yf_multi (raw : String) (base sfx : List Char)
    (h0 : TICKER_MAPPINGS.lookup raw = none)
    (h1 : splitOnDash raw.data = [base, sfx]) (h2 : sfx.length ≠ 1) :
    parse_ticker_yf raw = raw := by
  have hc := contains_of_split raw base sfx h1
  have hdata := splitOnDash_imp_data raw base sfx h1
  simp only [parse_ticker_yf, h0]
  rw [if_pos hc]
  simp only [h1]
  rw [if_neg h2]
  cases raw with
  | mk d => simp only [String.data] at hdata; rw [hdata]

theorem parse_ticker_yf_default (raw : String) (parts : List (List Char))
    (h0 : TICKER_MAPPINGS.lookup raw = none)
    (h1 : splitOnDash raw.data = parts) (h2 : parts.length ≠ 2) :
    parse_ticker_yf raw = raw := by
  simp only [parse_ticker_yf, h0]
  by_cases hc : raw.data.contains '-' = true
  · rw [if_pos hc]
    simp only [h1]
    match parts, h2 with
    | [], _ => rfl
    | [_], _ => rfl
    | _ :: _ :: _ :: _, _ => rfl
  · rw [if_neg hc]

theorem parse_ticker_tv_split (raw : String) (base sfx : List Char)
    (h1 : splitOnDash raw.data = [base, sfx]) :
    parse_ticker_tv raw = ⟨base ++ '/' :: 'P' :: sfx⟩ := by
  have hc := contains_of_split raw base sfx h1
  simp only [parse_ticker_tv]
  rw [if_pos hc]
  simp only [h1]

theorem parse_ticker_tv_default (raw : String) (parts : List (List Char))
    (h1 : splitOnDash raw.data = parts) (h2 : parts.length ≠ 2) :
    parse_ticker_tv raw = raw := by
  simp only [parse_ticker_tv]
  by_cases hc : raw.data.contains '-' = true
  · rw [if_pos hc]
    simp only [h1]
    match parts, h2 with
    | [], _ => rfl
    | [_], _ => rfl
    | _ :: _ :: _ :: _, _ => rfl
  · rw [if_neg hc]

/-- C7: `parse_ticker_yf` (the provider-symbol translation) is total and
behaves as claimed: override-table entries are matched first by exact
string equality; a ticker with exactly one dash and a single-character tail
gets the literal `P` inserted right after the dash; a ticker with exactly
one dash and a tail of any other length is returned unchanged; and a ticker
whose dash split does not have exactly two parts is echoed unchanged. -/
theorem parse_ticker_yf_spec :
    (∀ raw m, TICKER_MAPPINGS.lookup raw = some m → parse_ticker_yf raw = m) ∧
    (∀ raw base sfx, TICKER_MAPPINGS.lookup raw = none →
        splitOnDash raw.data = [base, sfx] → sfx.length = 1 →
        parse_ticker_yf raw = ⟨base ++ '-' :: 'P' :: sfx⟩) ∧
    (∀ raw base sfx, TICKER_MAPPINGS.lookup raw = none →
        splitOnDash raw.data = [base, sfx] → sfx.length ≠ 1 →
        parse_ticker_yf raw = raw) ∧
    (∀ raw parts, TICKER_MAPPINGS.lookup raw = none →
        splitOnDash raw.data = parts → parts.length ≠ 2 →
        parse_ticker_yf raw = raw) :=
  ⟨parse_ticker_yf_override, parse_ticker_yf_single,
   parse_ticker_yf_multi, parse_ticker_yf_default⟩

/-- Witness for C7 at concrete tickers: an override entry, a
single-character suffix, a multi-character suffix, and a dashless ticker. -/
theorem parse_ticker_yf_spec_witness :
    parse_ticker_yf "NEE-N" = "NEE-PN" ∧ parse_ticker_yf "ABR-D" = "ABR-PD" ∧
    parse_ticker_yf "BAC-PL" = "BAC-PL" ∧ parse_ticker_yf "GOODO" = "GOODO" := by
  refine ⟨parse_ticker_yf_spec.1 "NEE-N" "NEE-PN" (by decide), ?_,
    parse_ticker_yf_spec.2.2.1 "BAC-PL" ['B', 'A', 'C'] ['P', 'L']
      (by decide) (by decide) (by decide),
    parse_ticker_yf_spec.2.2.2 "GOODO" [['G', 'O', 'O', 'D', 'O']]
      (by decide) (by decide) (by decide)⟩
  rw [parse_ticker_yf_spec.2.1 "ABR-D" ['A', 'B', 'R'] ['D']
    (by decide) (by decide) (by decide)]
  decide

/-- C6 counterexample: the chart-symbol translation does NOT mirror the
provider translation on multi-character dash suffixes.  The provider rule
leaves `BAC-PL` unchanged, but `parse_ticker_tv` inserts an extra `P`,
yielding `BAC/PPL` rather than a preserved spelling. -/
theorem parse_ticker_tv_not_mirror :
    parse_ticker_yf "BAC-PL" = "BAC-PL" ∧
    parse_ticker_tv "BAC-PL" = "BAC/PPL" ∧
    parse_ticker_tv "BAC-PL" ≠ "BAC-PL" ∧
    parse_ticker_tv "BAC-PL" ≠ "BAC/PL" := by decide

/-- C6 amended: `parse_ticker_tv` inserts `/P` after the dash for EVERY
two-part dash split, regardless of the suffix length, and consults no
override table; it mirrors `parse_ticker_yf` (with `/P` in place of `-P`)
exactly on tickers with a single-character suffix that are not in the
override table, and both translations echo tickers whose dash split does
not have exactly two parts. -/
theorem parse_ticker_tv_spec :
    (∀ raw base sfx, splitOnDash raw.data = [base, sfx] →
        parse_ticker_tv raw = ⟨base ++ '/' :: 'P' :: sfx⟩) ∧
    (∀ raw base sfx, TICKER_MAPPINGS.lookup raw = none →
        splitOnDash raw.data = [base, sfx] → sfx.length = 1 →
        parse_ticker_yf raw = ⟨base ++ '-' :: 'P' :: sfx⟩ ∧
        parse_ticker_tv raw = ⟨base ++ '/' :: 'P' :: sfx⟩) ∧
    (∀ raw parts, splitOnDash raw.data = parts → parts.length ≠ 2 →
        parse_ticker_tv raw = raw) :=
  ⟨parse_ticker_tv_split,
   fun raw base sfx h0 h1 h2 =>
     ⟨parse_ticker_yf_single raw base sfx h0 h1 h2, parse_ticker_tv_split raw base sfx h1⟩,
   parse_ticker_tv_default⟩

/-- Witness for the amended C6 at concrete tickers. -/
theorem parse_ticker_tv_spec_witness :
    parse_ticker_tv "BAC-PL" = "BAC/PPL" ∧
    (parse_ticker_yf "ABR-D" = "ABR-PD" ∧ parse_ticker_tv "ABR-D" = "ABR/PD") ∧
    parse_ticker_tv "GOODO" = "GOODO" := by
  refine ⟨?_, ?_,
    parse_ticker_tv_spec.2.2 "GOODO" [['G', 'O', 'O', 'D', 'O']] (by decide) (by decide)⟩
  · rw [parse_ticker_tv_spec.1 "BAC-PL" ['B', 'A', 'C'] ['P', 'L'] (by decide)]
    decide
  · have h := parse_ticker_tv_spec.2.1 "ABR-D" ['A', 'B', 'R'] ['D']
      (by decide) (by decide) (by decide)
    rw [h.1, h.2]
    exact ⟨by decide, by decide⟩

theorem naGe_iff (x : Option ℚ) (q : ℚ) :
    naGe x q = true ↔ ∃ a, x = some a ∧ q ≤ a := by
  cases x <;> simp [naGe]

/-- C5: the Range-Compression Filter emits a match for a fetched series
exactly when `totalRange = max(High) - min(Low) <= 1.00` and
`avgDailySpread = mean(High - Low) >= 0.10`, both bounds inclusive; a
series with range exactly 1.00 and mean spread exactly 0.10 matches, and
lifting the range to 1.0001 loses the match. -/
theorem spread_filter_boundary :
    (∀ raw yf_sym df,
      (spread_eval raw yf_sym df).isSome ↔
        ∃ hm lm a, naMax (df.map (·.bhigh)) = some hm ∧
          naMin (df.map (·.blow)) = some lm ∧
          naMean (df.map (fun b => optSub b.bhigh b.blow)) = some a ∧
          hm - lm ≤ 1 ∧ 1 / 10 ≤ a) ∧
    (spread_eval "T" "T" dfBoundary).isSome = true ∧
    (spread_eval "T" "T" dfOver).isSome = false := by
  refine ⟨fun raw yf_sym df => ?_,
    by
      simp [spread_eval, dfBoundary, naMax, naMin, naMean, naGe, optSub,
        max_def, min_def]
      norm_num,
    by
      simp [spread_eval, dfOver, naMax, naMin, naMean, naGe, optSub,
        max_def, min_def]
      norm_num⟩
  cases hmax : naMax (df.map (·.bhigh)) with
  | none =>
      simp only [spread_eval, hmax]
      constructor
      · intro h; exact absurd h (by simp)
      · rintro ⟨hm, lm, a, h1, h2, h3, h4, h5⟩
        exact Option.noConfusion h1
  | some hm =>
      cases hmin : naMin (df.map (·.blow)) with
      | none =>
          simp only [spread_eval, hmax, hmin]
          constructor
          · intro h; exact absurd h (by simp)
          · rintro ⟨hm', lm, a, h1, h2, h3, h4, h5⟩
            exact Option.noConfusion h2
      | some lm =>
          simp only [spread_eval, hmax, hmin]
          by_cases hcond : hm - lm ≤ 1 ∧
              naGe (naMean (df.map (fun b => optSub b.bhigh b.blow))) (1 / 10) = true
          · rw [if_pos hcond]
            simp only [Option.isSome_some, true_iff]
            obtain ⟨a, ha, hqa⟩ := (naGe_iff _ _).1 hcond.2
            exact ⟨hm, lm, a, rfl, rfl, ha, hcond.1, hqa⟩
          · rw [if_neg hcond]
            constructor
            · intro h; exact absurd h (by simp)
            · rintro ⟨hm', lm', a, h1, h2, h3, h4, h5⟩
              injection h1 with e1
              injection h2 with e2
              subst e1
              subst e2
              exact (hcond ⟨h4, (naGe_iff _ _).2 ⟨a, h3, h5⟩⟩).elim

/-- C2 counterexample: `fetch_and_process` (the Range-Compression Filter)
performs no minimum-length check: a fetched series of one single bar — far
below every evaluator minimum of the spec — is evaluated and emits a match
instead of being silently skipped. -/
theorem range_filter_no_min_length :
    ((fetch_and_process_model pSingleBar 2 ["T"]).results.map (·.ticker) = ["T"]) ∧
    pSingleBar "T" 0 = .ok [bar25] ∧ ([bar25] : Series).length = 1 := by
  refine ⟨?_, rfl, rfl⟩
  simp [fetch_and_process_model, fetch_and_process_go, pref_process_ticker,
    callHist, zeroCounts, pSingleBar, bar25, spread_eval, naMax, naMin, naMean,
    naGe, optSub, show parse_ticker_yf "T" = "T" from rfl]
  norm_num

/-- C2 amended: the Wick-Imbalance Scanner drops all-missing rows and then
silently skips any ticker whose cleaned series has fewer than `days` bars;
the Range-Compression Filter however applies no row cleaning and no
minimum-length requirement — every non-empty fetched series that passes the
range/spread gate emits a match, regardless of its length. -/
theorem series_cleaning_and_min_length :
    (∀ p ps c raw df, p (parse_ticker_yf raw) (c (parse_ticker_yf raw)) = .ok df →
        df ≠ [] → (dropAllNa df).length < ps.days →
        (imb_process_ticker p ps c raw).1 = []) ∧
    (∀ p raw df m, p (parse_ticker_yf raw) 0 = .ok df → df ≠ [] →
        spread_eval raw (parse_ticker_yf raw) df = some m →
        (fetch_and_process_model p 2 [raw]).results = [m]) := by
  constructor
  · intro p ps c raw df h hne hlen
    simp only [imb_process_ticker, callHist, h, if_neg hne]
    have : dropAllNa df = [] ∨ (dropAllNa df).length < ps.days := Or.inr hlen
    simp [this]
  · intro p raw df m h hne hm
    simp only [fetch_and_process_model, fetch_and_process_go, pref_process_ticker,
      callHist, zeroCounts, h, if_neg hne, hm]
    simp [fetch_and_process_go]

/-- Witness for the amended C2: a two-bar series is skipped by the
imbalance scanner when `days = 3`, while the one-bar series `[bar25]`
yields a range-compression match. -/
theorem series_cleaning_witness :
    (imb_process_ticker pGreenRed ⟨3, 1, 12 / 100⟩ zeroCounts "T").1 = [] ∧
    (fetch_and_process_model pSingleBar 2 ["T"]).results = [prefFix] :=
  ⟨series_cleaning_and_min_length.1 pGreenRed ⟨3, 1, 12 / 100⟩ zeroCounts "T"
      [barGreen, barRed] rfl (by simp) (by simp [dropAllNa, Bar.isAllNa, barGreen, barRed]),
   series_cleaning_and_min_length.2 pSingleBar "T" [bar25] prefFix
      rfl (by simp)
      (by
        simp [spread_eval, bar25, prefFix, naMax, naMin, naMean, naGe, optSub,
          show parse_ticker_yf "T" = "T" from rfl,
          show parse_ticker_tv "T" = "T" from by decide]
        norm_num)⟩

/-- A run of the `fetch_and_process` loop that never observes the stop flag
equals the plain sequential runner. -/
theorem fetch_and_process_go_complete (p : Oracle) (stopAt : Nat) :
    ∀ ts i c rs, i + ts.length < stopAt →
      fetch_and_process_go p stopAt ts i c rs =
        { results := rs ++ (pref_run p c ts).1,
          progress := if i + ts.length = 0 then none else some (i + ts.length),
          processed := i + ts.length, counts := (pref_run p c ts).2 } := by
  intro ts
  induction ts with
  | nil =>
      intro i c rs h
      simp [fetch_and_process_go, pref_run]
  | cons t ts ih =>
      intro i c rs h
      simp only [fetch_and_process_go]
      cases hpt : pref_process_ticker p c t with
      | mk m c' =>
        have hlt : ¬ stopAt ≤ i + 1 := by
          simp only [List.length_cons] at h; omega
        simp only [hlt, if_false]
        rw [ih (i + 1) c' (rs ++ m.toList) (by simp only [List.length_cons] at h; omega)]
        simp only [List.length_cons]
        rw [show i + (ts.length + 1) = i + 1 + ts.length from by omega]
        simp [pref_run, hpt, List.append_assoc]

/-- A run of the `fetch_and_process` loop whose stop flag is set after
`stopAt` processed tickers (with at least one ticker processed before the
threshold) returns exactly the first `stopAt` tickers' matches, reports
progress `stopAt`, and processes nothing further. -/
theorem fetch_and_process_go_stop (p : Oracle) (stopAt : Nat) :
    ∀ ts i c rs, stopAt ≤ i + ts.length → i < stopAt →
      fetch_and_process_go p stopAt ts i c rs =
        { results := rs ++ (pref_run p c (ts.take (stopAt - i))).1,
          progress := some stopAt, processed := stopAt,
          counts := (pref_run p c (ts.take (stopAt - i))).2 } := by
  intro ts
  induction ts with
  | nil =>
      intro i c rs h1 h2
      simp only [List.length_nil, Nat.add_zero] at h1
      omega
  | cons t ts ih =>
      intro i c rs h1 h2
      simp only [fetch_and_process_go]
      cases hpt : pref_process_ticker p c t with
      | mk m c' =>
        by_cases hstop : stopAt ≤ i + 1
        · have : stopAt = i + 1 := by omega
          subst this
          simp only [le_refl, if_true]
          have htake : i + 1 - i = 1 := by omega
          rw [htake]
          simp [pref_run, hpt]
        · simp only [hstop, if_false]
          rw [ih (i + 1) c' (rs ++ m.toList)
            (by simp only [List.length_cons] at h1; omega) (by omega)]
          have htake : stopAt - i = (stopAt - (i + 1)) + 1 := by omega
          rw [htake]
          simp [List.take_succ_cons, pref_run, hpt, List.append_assoc]

/-- A run of the `fetch_imbalance` loop that never observes the stop flag
equals the plain sequential runner (with the final `(total, total)`
progress report). -/
theorem fetch_imbalance_go_complete (p : Oracle) (ps : ImbParams)
    (stopAt total : Nat) :
    ∀ ts i c rs, i + ts.length ≤ stopAt →
      fetch_imbalance_go p ps stopAt total ts i c rs =
        { results := rs ++ (imb_run p ps c ts).1, progress := some total,
          processed := i + ts.length, counts := (imb_run p ps c ts).2 } := by
  intro ts
  induction ts with
  | nil =>
      intro i c rs h
      simp [fetch_imbalance_go, imb_run]
  | cons t ts ih =>
      intro i c rs h
      simp only [fetch_imbalance_go]
      have hlt : ¬ stopAt ≤ i := by
        simp only [List.length_cons] at h; omega
      simp only [hlt, if_false]
      cases hpt : imb_process_ticker p ps c t with
      | mk ms c' =>
        rw [ih (i + 1) c' (rs ++ ms) (by simp only [List.length_cons] at h; omega)]
        simp only [List.length_cons]
        rw [show i + (ts.length + 1) = i + 1 + ts.length from by omega]
        simp [imb_run, hpt, List.append_assoc]

/-- A run of the `fetch_imbalance` loop whose stop flag is set after
`stopAt` processed tickers stops at the poll preceding ticker `stopAt`:
it returns exactly the first `stopAt` tickers' matches and reports progress
`stopAt`. -/
theorem fetch_imbalance_go_stop (p : Oracle) (ps : ImbParams)
    (stopAt total : Nat) :
    ∀ ts i c rs, stopAt < i + ts.length → i ≤ stopAt →
      fetch_imbalance_go p ps stopAt total ts i c rs =
        { results := rs ++ (imb_run p ps c (ts.take (stopAt - i))).1,
          progress := some stopAt, processed := stopAt,
          counts := (imb_run p ps c (ts.take (stopAt - i))).2 } := by
  intro ts
  induction ts with
  | nil =>
      intro i c rs h1 h2
      simp only [List.length_nil, Nat.add_zero] at h1
      omega
  | cons t ts ih =>
      intro i c rs h1 h2
      simp only [fetch_imbalance_go]
      by_cases hstop : stopAt ≤ i
      · have : stopAt = i := by omega
        subst this
        simp only [le_refl, if_true]
        simp [imb_run]
      · simp only [hstop, if_false]
        cases hpt : imb_process_ticker p ps c t with
        | mk ms c' =>
          rw [ih (i + 1) c' (rs ++ ms)
            (by simp only [List.length_cons] at h1; omega) (by omega)]
          have htake : stopAt - i = (stopAt - (i + 1)) + 1 := by omega
          rw [htake]
          simp [List.take_succ_cons, imb_run, hpt, List.append_assoc]

/-- C3 counterexample: a transient error (a history call that raises once
and would succeed on any retry) on ticker `A` is NOT retried by
`fetch_and_process`: exactly one provider call is made for `A`, the ticker
is skipped without reaching candidate resolution, and only `B` produces a
match — whereas under the claimed retry policy `A`'s fetch would have
succeeded. -/
theorem fetch_no_retry_counterexample :
    ((fetch_and_process_model pTransient 3 ["A", "B"]).results.map (·.ticker) = ["B"]) ∧
    ((fetch_and_process_model pTransient 3 ["A", "B"]).counts "A" = 1) ∧
    pTransient "A" 0 = .error "ReadTimeout" ∧
    pTransient "A" 1 = .ok [bar25] ∧
    (spread_eval "A" "A" [bar25]).isSome = true := by
  refine ⟨?_, ?_, rfl, rfl, ?_⟩
  · simp [fetch_and_process_model, fetch_and_process_go, pref_process_ticker,
      callHist, zeroCounts, pTransient, bar25, spread_eval, naMax, naMin, naMean,
      naGe, optSub, show parse_ticker_yf "A" = "A" from rfl,
      show parse_ticker_yf "B" = "B" from rfl,
      show ("B" : String) ≠ "A" from by decide,
      show ("A" : String) ≠ "B" from by decide]
    norm_num
  · simp [fetch_and_process_model, fetch_and_process_go, pref_process_ticker,
      callHist, zeroCounts, pTransient, bar25, spread_eval, naMax, naMin, naMean,
      naGe, optSub, show parse_ticker_yf "A" = "A" from rfl,
      show parse_ticker_yf "B" = "B" from rfl,
      show ("B" : String) ≠ "A" from by decide,
      show ("A" : String) ≠ "B" from by decide]
  · simp [spread_eval, bar25, naMax, naMin, naMean, naGe, optSub]
    norm_num

/-- C3 amended: the batch scanners do not retry a raising history fetch —
the exception is caught, the ticker contributes nothing, its call counter
stops at one bump, and the remaining tickers are processed; only the
Dividend-Recovery Analyzer retries its provider calls: the dividends fetch
up to three times (propagating the final error), and the price-history
fetch up to three times before candidate resolution. -/
theorem retry_policy :
    (∀ p c t ts e,
        p (parse_ticker_yf t) (c (parse_ticker_yf t)) = .error e →
        (pref_run p c (t :: ts)).1 =
          (pref_run p
            (fun s => if s = parse_ticker_yf t then c (parse_ticker_yf t) + 1 else c s)
            ts).1) ∧
    (∀ p ts, (fetch_and_process_model p (ts.length + 1) ts).results =
        (pref_run p zeroCounts ts).1) ∧
    (∀ q : Nat → Except String DivSeries, ∀ e0 e1 d,
        q 0 = .error e0 → q 1 = .error e1 → q 2 = .ok d → retry3 q = .ok d) ∧
    (∀ q : Nat → Except String Hist, ∀ e0 e1 h,
        q 0 = .error e0 → q 1 = .error e1 → q 2 = .ok h → hist_retry q = h) ∧
    (∀ q : Nat → Except String DivSeries, ∀ e0 e1 e2,
        q 0 = .error e0 → q 1 = .error e1 → q 2 = .error e2 →
        retry3 q = .error e2) := by
  refine ⟨?_, ?_, ?_, ?_, ?_⟩
  · intro p c t ts e h
    simp [pref_run, pref_process_ticker, callHist, h]
  · intro p ts
    rw [fetch_and_process_model,
      fetch_and_process_go_complete p (ts.length + 1) ts 0 zeroCounts []
        (by omega)]
    simp
  · intro q e0 e1 d h0 h1 h2
    simp [retry3, h0, h1, h2]
  · intro q e0 e1 h h0 h1 h2
    simp [hist_retry, h0, h1, h2]
  · intro q e0 e1 e2 h0 h1 h2
    simp [retry3, h0, h1, h2]

/-- C1 counterexample: a ticker whose qualifying green AND red counts both
reach `min_count` yields TWO separate records, a Long and a Short — not the
single prioritized Long the claim describes. -/
theorem imbalance_double_emit :
    ((fetch_imbalance_model pGreenRed ⟨2, 1, 12 / 100⟩ 2 ["T"]).results.map
        (fun r => (r.ticker, r.mtype)) = [("T", "Long"), ("T", "Short")]) ∧
    1 ≤ (valid_green (12 / 100) [barGreen, barRed]).length ∧
    1 ≤ (valid_red (12 / 100) [barGreen, barRed]).length := by
  refine ⟨?_, ?_, ?_⟩
  · simp [fetch_imbalance_model, fetch_imbalance_go, imb_process_ticker,
      callHist, zeroCounts, pGreenRed, barGreen, barRed, dropAllNa, Bar.isAllNa,
      imb_patterns, valid_green, valid_red, is_green, is_red, green_wick_ok,
      red_wick_ok, naMean, optSub,
      show parse_ticker_yf "T" = "T" from rfl,
      show parse_ticker_tv "T" = "T" from by decide]
    norm_num
  · simp [valid_green, is_green, green_wick_ok, barGreen, barRed]
    norm_num
  · simp [valid_red, is_red, red_wick_ok, barGreen, barRed]
    norm_num

/-- C1 amended: per evaluated slice, `fetch_imbalance` emits a Long record
iff the qualifying-green count reaches `min_count` and, independently, a
Short record iff the qualifying-red count does; when both thresholds are
met both records are emitted, Long first. -/
theorem imb_patterns_emission (raw yf_sym tv_sym : String) (ps : ImbParams)
    (s : Series) :
    ((imb_patterns raw yf_sym tv_sym ps s).map (·.mtype) =
      (if ps.min_count ≤ (valid_green ps.max_wick s).length then ["Long"] else []) ++
      (if ps.min_count ≤ (valid_red ps.max_wick s).length then ["Short"] else [])) ∧
    ((∃ m ∈ imb_patterns raw yf_sym tv_sym ps s, m.mtype = "Long") ↔
        ps.min_count ≤ (valid_green ps.max_wick s).length) ∧
    ((∃ m ∈ imb_patterns raw yf_sym tv_sym ps s, m.mtype = "Short") ↔
        ps.min_count ≤ (valid_red ps.max_wick s).length) := by
  by_cases hg : ps.min_count ≤ (valid_green ps.max_wick s).length <;>
    by_cases hr : ps.min_count ≤ (valid_red ps.max_wick s).length <;>
      simp [imb_patterns, hg, hr]

/-- C8: the baseline differ flags a match new iff its ticker is absent from
the baseline set, it is idempotent, and it mutates nothing but the `is_new`
flag. -/
theorem markNew_spec :
    (∀ ms b, markNew (markNew ms b) b = markNew ms b) ∧
    (∀ ms b, ∀ r ∈ markNew ms b, (r.is_new = some true ↔ r.ticker ∉ b)) ∧
    (∀ ms b, (markNew ms b).map (fun r => { r with is_new := none }) =
        ms.map (fun r => { r with is_new := none })) ∧
    (∀ ms b, (markNew ms b).length = ms.length) := by
  refine ⟨?_, ?_, ?_, ?_⟩
  · intro ms b
    simp [markNew, List.map_map]
  · intro ms b r hr
    simp only [markNew, List.mem_map] at hr
    obtain ⟨x, hx, rfl⟩ := hr
    simp
  · intro ms b
    simp [markNew, List.map_map]
  · intro ms b
    simp [markNew]

/-- Witness for C8: a concrete flagged match. -/
theorem markNew_spec_witness :
    ({ prefFix with is_new := some true } : PrefMatch).is_new = some true :=
  (markNew_spec.2.1 [prefFix] [] _ (by simp [markNew])).2 (by simp)

/-- Witness for the amended C3 at concrete providers. -/
theorem retry_policy_witness :
    (pref_run pTransient zeroCounts ["A", "B"]).1 =
      (pref_run pTransient
        (fun s => if s = parse_ticker_yf "A" then
            zeroCounts (parse_ticker_yf "A") + 1 else zeroCounts s) ["B"]).1 ∧
    retry3 (pDivRetry.dividends "X") = .ok [(20000, 1 / 2)] ∧
    hist_retry (fun n => if n < 2 then .error "x"
      else .ok [{ hdate := 20001, hbar := bar25 }]) = [{ hdate := 20001, hbar := bar25 }] ∧
    retry3 (fun _ => (.error "x" : Except String DivSeries)) = .error "x" :=
  ⟨retry_policy.1 pTransient zeroCounts "A" ["B"] "ReadTimeout" rfl,
   retry_policy.2.2.1 (pDivRetry.dividends "X") "ReadTimeout" "ReadTimeout" _ rfl rfl rfl,
   retry_policy.2.2.2.1 _ "x" "x" _ rfl rfl rfl,
   retry_policy.2.2.2.2 _ "x" "x" "x" rfl rfl rfl⟩

/-- C4 counterexample: `fetch_and_process` polls the callback only AFTER
each ticker, so a cancellation signaled when 0 of 1 tickers are processed
(k = 0) still processes the first ticker: the match list holds a match
derived from ticker 1's data, one ticker is processed, and the last
reported progress is 1, not 0. -/
theorem cancellation_k0_counterexample :
    ((fetch_and_process_model pSingleBar 0 ["T"]).results.map (·.ticker) = ["T"]) ∧
    (fetch_and_process_model pSingleBar 0 ["T"]).processed = 1 ∧
    (fetch_and_process_model pSingleBar 0 ["T"]).progress = some 1 := by
  refine ⟨?_, ?_, ?_⟩ <;>
    · simp [fetch_and_process_model, fetch_and_process_go, pref_process_ticker,
        callHist, zeroCounts, pSingleBar, bar25, spread_eval, naMax, naMin,
        naMean, naGe, optSub, show parse_ticker_yf "T" = "T" from rfl]
      try norm_num

/-- C4 amended: cancellation after `k` of `n` tickers yields exactly the
first `k` tickers' matches with final progress `k`: for `fetch_imbalance`
(flag polled BEFORE each ticker) this holds for every `k < n`; for
`fetch_and_process` (flag polled only AFTER each ticker) it holds for every
`1 ≤ k < n`, while a flag set before the first poll still lets one ticker
through. -/
theorem cancellation_partial_results :
    (∀ p ps ts k, k < ts.length →
        (fetch_imbalance_model p ps k ts).results =
          (fetch_imbalance_model p ps (k + 1) (ts.take k)).results ∧
        (fetch_imbalance_model p ps k ts).processed = k ∧
        (fetch_imbalance_model p ps k ts).progress = some k) ∧
    (∀ p ts k, 1 ≤ k → k < ts.length →
        (fetch_and_process_model p k ts).results =
          (fetch_and_process_model p (k + 1) (ts.take k)).results ∧
        (fetch_and_process_model p k ts).processed = k ∧
        (fetch_and_process_model p k ts).progress = some k) := by
  constructor
  · intro p ps ts k hk
    have hstop := fetch_imbalance_go_stop p ps k ts.length ts 0 zeroCounts []
      (by omega) (by omega)
    have hcomp := fetch_imbalance_go_complete p ps (k + 1) (ts.take k).length
      (ts.take k) 0 zeroCounts [] (by simp only [List.length_take]; omega)
    simp only [fetch_imbalance_model, hstop, hcomp]
    simp
  · intro p ts k hk1 hk2
    have hstop := fetch_and_process_go_stop p k ts 0 zeroCounts []
      (by omega) (by omega)
    have hcomp := fetch_and_process_go_complete p (k + 1) (ts.take k) 0
      zeroCounts [] (by simp only [List.length_take]; omega)
    simp only [fetch_and_process_model, hstop, hcomp]
    simp

/-- Witness for the amended C4 at concrete scans. -/
theorem cancellation_partial_results_witness :
    (fetch_imbalance_model pGreenRed ⟨2, 1, 12 / 100⟩ 1 ["T", "U"]).processed = 1 ∧
    (fetch_and_process_model pSingleBar 1 ["T", "U"]).processed = 1 :=
  ⟨(cancellation_partial_results.1 pGreenRed ⟨2, 1, 12 / 100⟩ ["T", "U"] 1
      (by decide)).2.1,
   (cancellation_partial_results.2 pSingleBar ["T", "U"] 1 (by decide)
      (by decide)).2.1⟩

theorem analyze_with_divs_cases (P : DivProvider) (raw sym1 : String)
    (c1 : Counts) (divs2 : DivSeries) (lb rw : Nat) (today : ℤ) (r : DivResult)
    (h : analyze_with_divs P raw sym1 c1 divs2 lb rw today = .ok r) :
    r = err_result raw "No dividend history found" ∨
    r = err_result raw "No price history found" ∨
    ∃ hist, r = analyze_success P raw sym1 divs2
      (divs2.drop (divs2.length - lb)) hist rw today := by
  unfold analyze_with_divs at h
  by_cases hd : divs2 = []
  · rw [if_pos hd] at h
    exact Or.inl (Except.ok.inj h).symm
  · rw [if_neg hd] at h
    split at h
    · exact absurd h (by simp)
    · split at h
      · exact Or.inr (Or.inl (Except.ok.inj h).symm)
      · exact Or.inr (Or.inr ⟨_, (Except.ok.inj h).symm⟩)

theorem analyze_body_cases (P : DivProvider) (raw yf0 : String)
    (divs0 : DivSeries) (lb rw : Nat) (today : ℤ) (r : DivResult)
    (h : analyze_body P raw yf0 divs0 lb rw today = .ok r) :
    r = err_result raw "No dividend history found" ∨
    r = err_result raw "No price history found" ∨
    ∃ sym1 divs2 hist, r = analyze_success P raw sym1 divs2
      (divs2.drop (divs2.length - lb)) hist rw today := by
  unfold analyze_body at h
  by_cases hd : divs0 = []
  · rw [if_pos hd] at h
    split at h
    · split at h
      · rcases analyze_with_divs_cases _ _ _ _ _ _ _ _ _ h with h1 | h1 | ⟨hist, h1⟩
        · exact Or.inl h1
        · exact Or.inr (Or.inl h1)
        · exact Or.inr (Or.inr ⟨_, _, hist, h1⟩)
      · exact absurd h (by simp)
    · rcases analyze_with_divs_cases _ _ _ _ _ _ _ _ _ h with h1 | h1 | ⟨hist, h1⟩
      · exact Or.inl h1
      · exact Or.inr (Or.inl h1)
      · exact Or.inr (Or.inr ⟨_, _, hist, h1⟩)
  · rw [if_neg hd] at h
    rcases analyze_with_divs_cases _ _ _ _ _ _ _ _ _ h with h1 | h1 | ⟨hist, h1⟩
    · exact Or.inl h1
    · exact Or.inr (Or.inl h1)
    · exact Or.inr (Or.inr ⟨_, _, hist, h1⟩)

/-- Every record the analyzer can return is well-formed: it names the
requested ticker, and an error-flagged record carries empty dividends and
null numeric fields. -/
theorem analyze_shape (P : DivProvider) (raw : String) (lb rw : Nat)
    (today : ℤ) :
    (analyze_dividend_recovery P raw lb rw today).ticker = raw ∧
    (analyze_dividend_recovery P raw lb rw today).tv_symbol = parse_ticker_tv raw ∧
    ((analyze_dividend_recovery P raw lb rw today).error.isSome →
      (analyze_dividend_recovery P raw lb rw today).dividends = [] ∧
      (analyze_dividend_recovery P raw lb rw today).current_price = none ∧
      (analyze_dividend_recovery P raw lb rw today).days_since_last_div = none ∧
      (analyze_dividend_recovery P raw lb rw today).next_div_days = none ∧
      (analyze_dividend_recovery P raw lb rw today).avg_volume_30d = none) := by
  unfold analyze_dividend_recovery
  cases hq : retry3 (P.dividends (parse_ticker_yf raw)) with
  | error e => simp [hq, err_result]
  | ok divs0 =>
      cases hb : analyze_body P raw (parse_ticker_yf raw) divs0 lb rw today with
      | error e => simp [hq, hb, err_result]
      | ok r =>
          rcases analyze_body_cases _ _ _ _ _ _ _ _ hb with h1 | h1 | ⟨s1, d2, hist, h1⟩ <;>
            subst h1 <;> simp [hq, hb, err_result, analyze_success]

/-- C9: the Dividend-Recovery Analyzer is total and never raises past its
boundary: every result names the ticker; an error-flagged result always has
empty dividends and null numeric fields; a dividends fetch whose three
attempts all raise yields the error record of the final exception; no
dividends from any source yields the `No dividend history found` record;
dividends but no price history yields the `No price history found`
record. -/
theorem dividend_analyzer_error_contract :
    (∀ P raw lb rw (today : ℤ),
        (analyze_dividend_recovery P raw lb rw today).ticker = raw ∧
        (analyze_dividend_recovery P raw lb rw today).tv_symbol =
          parse_ticker_tv raw) ∧
    (∀ P raw lb rw (today : ℤ),
        (analyze_dividend_recovery P raw lb rw today).error.isSome →
        (analyze_dividend_recovery P raw lb rw today).dividends = [] ∧
        (analyze_dividend_recovery P raw lb rw today).current_price = none ∧
        (analyze_dividend_recovery P raw lb rw today).days_since_last_div = none) ∧
    (∀ P raw lb rw (today : ℤ) e,
        retry3 (P.dividends (parse_ticker_yf raw)) = .error e →
        analyze_dividend_recovery P raw lb rw today = err_result raw e) ∧
    (∀ P raw lb rw (today : ℤ),
        retry3 (P.dividends (parse_ticker_yf raw)) = .ok [] →
        (resolve_ticker_yf P.probe zeroCounts raw).1 = none →
        P.scrape = [] →
        analyze_dividend_recovery P raw lb rw today =
          err_result raw "No dividend history found") ∧
    (∀ P raw lb rw (today : ℤ) divs0,
        retry3 (P.dividends (parse_ticker_yf raw)) = .ok divs0 → divs0 ≠ [] →
        hist_retry (P.hist2y (parse_ticker_yf raw)) = [] →
        (resolve_ticker_yf P.probe zeroCounts raw).1 = none →
        analyze_dividend_recovery P raw lb rw today =
          err_result raw "No price history found") := by
  refine ⟨?_, ?_, ?_, ?_, ?_⟩
  · intro P raw lb rw today
    exact ⟨(analyze_shape P raw lb rw today).1, (analyze_shape P raw lb rw today).2.1⟩
  · intro P raw lb rw today herr
    have h := (analyze_shape P raw lb rw today).2.2 herr
    exact ⟨h.1, h.2.1, h.2.2.1⟩
  · intro P raw lb rw today e hq
    simp [analyze_dividend_recovery, hq]
  · intro P raw lb rw today hq hres hscrape
    simp only [analyze_dividend_recovery, hq]
    cases hr : resolve_ticker_yf P.probe zeroCounts raw with
    | mk o c' =>
        rw [hr] at hres
        simp only at hres
        subst hres
        simp [analyze_body, analyze_with_divs, hr, hscrape, err_result]
  · intro P raw lb rw today divs0 hq hne hhist hres
    simp only [analyze_dividend_recovery, hq]
    cases hr : resolve_ticker_yf P.probe zeroCounts raw with
    | mk o c' =>
        rw [hr] at hres
        simp only at hres
        subst hres
        simp [analyze_body, analyze_with_divs, hr, hne, hhist, err_result]

/-- Witness for C9: the three failure stages at concrete providers. -/
theorem dividend_analyzer_error_contract_witness :
    analyze_dividend_recovery pDivFail "T" 3 5 20500 =
      err_result "T" "ConnectionError" ∧
    analyze_dividend_recovery pDivNone "T" 3 5 20500 =
      err_result "T" "No dividend history found" ∧
    analyze_dividend_recovery pDivNoHist "T" 3 5 20500 =
      err_result "T" "No price history found" ∧
    (analyze_dividend_recovery pDivFail "T" 3 5 20500).dividends = [] := by
  have h1 := dividend_analyzer_error_contract.2.2.1 pDivFail "T" 3 5 20500
    "ConnectionError" rfl
  have h2 := dividend_analyzer_error_contract.2.2.2.1 pDivNone "T" 3 5 20500
    rfl rfl rfl
  have h3 := dividend_analyzer_error_contract.2.2.2.2 pDivNoHist "T" 3 5 20500
    [(20000, 1 / 2)] rfl (by simp) rfl rfl
  have h4 := (dividend_analyzer_error_contract.2.1 pDivFail "T" 3 5 20500
    (by rw [h1]; rfl)).1
  exact ⟨h1, h2, h3, h4⟩

/-- C10: a cancelled prefs scan leaves `results`, `baseline_tickers`,
`last_updated` and `last_updated_ts` untouched, persists nothing, and sets
status `completed` when previous results exist, else `idle`; only an
uncancelled run replaces them and persists.  The imbalance twin can never
reach its (identically written) cancellation branch: its `fetch_imbalance`
call passes the keyword arguments `min_profit`, `filter_wick` and
`filter_profit`, which `logic.fetch_imbalance` does not accept, so the call
raises `TypeError` and every run ends with status `error` — the cached
fields are still preserved and nothing is persisted. -/
theorem cancelled_scan_preserves_state :
    (∀ cache (now_ts : ℚ) ts p k,
        k ≤ (fetch_and_process_model p k ts.eraseDups).processed →
        (load_and_analyze_prefs cache true now_ts (.ok ts) p k).1.results =
          cache.results ∧
        (load_and_analyze_prefs cache true now_ts (.ok ts) p k).1.baseline_tickers =
          cache.baseline_tickers ∧
        (load_and_analyze_prefs cache true now_ts (.ok ts) p k).1.last_updated =
          cache.last_updated ∧
        (load_and_analyze_prefs cache true now_ts (.ok ts) p k).1.last_updated_ts =
          cache.last_updated_ts ∧
        (load_and_analyze_prefs cache true now_ts (.ok ts) p k).2 = false ∧
        (load_and_analyze_prefs cache true now_ts (.ok ts) p k).1.status =
          (if cache.results ≠ [] then "completed" else "idle")) ∧
    (∀ cache (now_ts : ℚ) ts p k,
        ¬ k ≤ (fetch_and_process_model p k ts.eraseDups).processed →
        (load_and_analyze_prefs cache true now_ts (.ok ts) p k).1.results =
          markNew (fetch_and_process_model p k ts.eraseDups).results
            cache.baseline_tickers ∧
        (load_and_analyze_prefs cache true now_ts (.ok ts) p k).1.last_updated_ts =
          now_ts ∧
        (load_and_analyze_prefs cache true now_ts (.ok ts) p k).1.status =
          "completed" ∧
        (load_and_analyze_prefs cache true now_ts (.ok ts) p k).2 = true) ∧
    imbalance_call_raises = true ∧
    (∀ cache (now_ts : ℚ) ts p ps k,
        (load_and_analyze_imbalance cache true now_ts (.ok ts) p ps k).1.status =
          "error" ∧
        (load_and_analyze_imbalance cache true now_ts (.ok ts) p ps k).1.results =
          cache.results ∧
        (load_and_analyze_imbalance cache true now_ts (.ok ts) p ps k).1.baseline_tickers =
          cache.baseline_tickers ∧
        (load_and_analyze_imbalance cache true now_ts (.ok ts) p ps k).1.last_updated =
          cache.last_updated ∧
        (load_and_analyze_imbalance cache true now_ts (.ok ts) p ps k).1.last_updated_ts =
          cache.last_updated_ts ∧
        (load_and_analyze_imbalance cache true now_ts (.ok ts) p ps k).2 = false) := by
  refine ⟨?_, ?_, by decide, ?_⟩
  · intro cache now_ts ts p k hstop
    simp [load_and_analyze_prefs, hstop]
  · intro cache now_ts ts p k hstop
    simp [load_and_analyze_prefs, hstop]
  · intro cache now_ts ts p ps k
    simp [load_and_analyze_imbalance,
      show imbalance_call_raises = true from by decide]

/-- Witness for C10 at a concrete cache, ticker file and provider. -/
theorem cancelled_scan_preserves_state_witness :
    (load_and_analyze_prefs cache0 true 200 (.ok ["T"]) pSingleBar 1).1.results =
      cache0.results ∧
    (load_and_analyze_prefs cache0 true 200 (.ok ["T"]) pSingleBar 1).1.status =
      "completed" ∧
    (load_and_analyze_imbalance cacheImb0 true 200 (.ok ["T"]) pGreenRed
      ⟨2, 1, 12 / 100⟩ 1).1.status = "error" := by
  have h := cancelled_scan_preserves_state.1 cache0 200 ["T"] pSingleBar 1 (by
    show 1 ≤ (fetch_and_process_model pSingleBar 1 (["T"].eraseDups)).processed
    simp [fetch_and_process_model, fetch_and_process_go, pref_process_ticker,
      callHist, zeroCounts, pSingleBar, List.eraseDups,
      show parse_ticker_yf "T" = "T" from rfl])
  have h2 := (cancelled_scan_preserves_state.2.2.2 cacheImb0 200 ["T"] pGreenRed
    ⟨2, 1, 12 / 100⟩ 1).1
  refine ⟨h.1, ?_, h2⟩
  rw [h.2.2.2.2.2]
  simp [cache0]

end Woldebotz
